import Mathlib

/-!
Verification of the download-completion / file-reconciliation logic of
`reps_download.py` (class `MinSaludDownloader`).

The filesystem watcher `wait_for_download_and_rename` is embedded as a pure
function over: the snapshot taken before the download (`archivos_antes`), the
sequence of directory listings observed at the successive 1-second poll ticks
(`listados`, one entry per iteration of the `while` loop), and an oracle
`renombradoFalla` saying whether `os.rename` raises `OSError` at the final
step.  The result records the returned boolean, the filesystem operations
performed (`removed` / `renamed`), the final directory listing, and the log
messages emitted.

The two orchestrators `download_all_departamentos` and
`download_specific_departamentos` are embedded as trace-producing functions:
the per-region attempt outcome (driven by the browser) is an oracle
`intentoOk`, and the produced event list records attempts, counter updates,
pacing sleeps, abort messages and the `driver.quit()` call.
-/

/-- Default `timeout` argument of `wait_for_download_and_rename` (line 156). -/
def timeoutPorDefecto : Nat := 30

/-- Poll interval of the watcher loop, `time.sleep(1)` (line 188), in seconds. -/
def intervaloSondeo : Nat := 1

/-- Qualification test of lines 179-181: the lowercased name ends with `.xls`
or `.xlsx`, the name does not start with `~`, and the name does not end with
`.crdownload`.  String operations are spelled out over the character list so
that every run is kernel-computable (`str.lower` is `Char.toLower` per
character; `endswith`/`startswith` are suffix/prefix tests). -/
def esCalificado (archivo : String) : Bool :=
  let cs := archivo.toList
  let minusculas := cs.map Char.toLower
  (".xls".toList.isSuffixOf minusculas || ".xlsx".toList.isSuffixOf minusculas)
    && !("~".toList.isPrefixOf cs)
    && !(".crdownload".toList.isSuffixOf cs)

/-- `archivos_nuevos = archivos_actuales - archivos_antes` (line 175), with the
listing kept as a list (directory listings have no duplicate names). -/
def archivosNuevos (antes actuales : List String) : List String :=
  actuales.filter (fun a => !antes.contains a)

/-- One poll tick, lines 178-183: scan the new files and pick the first
qualifying one. -/
def buscarNuevo (antes actuales : List String) : Option String :=
  (archivosNuevos antes actuales).find? esCalificado

/-- The polling loop of lines 172-188: one listing per 1-second tick; the loop
ends at the first tick whose listing contains a qualifying new file (returning
that file and that listing) or when the tick budget is exhausted. -/
def sondearDescarga (antes : List String) : List (List String) → Option (String × List String)
  | [] => none
  | actuales :: resto =>
    match buscarNuevo antes actuales with
    | some f => some (f, actuales)
    | none => sondearDescarga antes resto

/-- Index of the last `'.'` in a character list, if any. -/
def indiceUltimoPunto : List Char → Option Nat
  | [] => none
  | c :: cs =>
    match indiceUltimoPunto cs with
    | some i => some (i + 1)
    | none => if c = '.' then some 0 else none

/-- Extension of a bare filename as computed by `os.path.splitext(nombre)[1]`
(line 193): everything from the last dot on, except that a name whose
characters before that dot are all dots has no extension. -/
def splitextExt (nombre : String) : String :=
  let cs := nombre.toList
  match indiceUltimoPunto cs with
  | none => ""
  | some i =>
    if (cs.take i).all (fun c => c = '.') then "" else String.mk (cs.drop i)

/-- Log messages emitted by `wait_for_download_and_rename`. -/
inductive LogMsg where
  | archivoExistenteEliminado (nombre : String)
  | archivoRenombrado (viejo nombre : String)
  | errorRenombrando
  | noSeDetectoDescarga (departamento : String)
  deriving DecidableEq

/-- Observable outcome of one run of `wait_for_download_and_rename`: the
returned boolean, the files deleted by `os.remove`, the successful `os.rename`
calls, the directory listing after the run, and the log. -/
structure WatchResult where
  ret : Bool
  removed : List String
  renamed : List (String × String)
  dirFinal : List String
  log : List LogMsg
  deriving DecidableEq

/-- `wait_for_download_and_rename` (lines 156-217).  `listados` is the
directory listing seen at each poll tick; `renombradoFalla` says whether
`os.rename` raises `OSError`.  `os.rename` also fails deterministically when
its source no longer exists (which happens when the downloaded file already
carried the target name and the pre-existing target — that same file — was
just removed). -/
def wait_for_download_and_rename (departamento_nombre : String)
    (archivos_antes : List String) (listados : List (List String))
    (renombradoFalla : Bool) : WatchResult :=
  match sondearDescarga archivos_antes listados with
  | none =>
    { ret := false
      removed := []
      renamed := []
      dirFinal := listados.getLastD archivos_antes
      log := [.noSeDetectoDescarga departamento_nombre] }
  | some (nuevo_archivo, actuales) =>
    let extension := splitextExt nuevo_archivo
    let nombre_nuevo := departamento_nombre ++ extension
    let objetivoExiste := actuales.contains nombre_nuevo
    let dirTrasRemove := if objetivoExiste then actuales.erase nombre_nuevo else actuales
    let logRemove : List LogMsg :=
      if objetivoExiste then [.archivoExistenteEliminado nombre_nuevo] else []
    if !renombradoFalla && dirTrasRemove.contains nuevo_archivo then
      { ret := true
        removed := if objetivoExiste then [nombre_nuevo] else []
        renamed := [(nuevo_archivo, nombre_nuevo)]
        dirFinal := dirTrasRemove.erase nuevo_archivo ++ [nombre_nuevo]
        log := logRemove ++ [.archivoRenombrado nuevo_archivo nombre_nuevo] }
    else
      { ret := false
        removed := if objetivoExiste then [nombre_nuevo] else []
        renamed := []
        dirFinal := dirTrasRemove
        log := logRemove ++ [.errorRenombrando] }

/-- A `(codigo, nombre)` pair from the region dropdown (`get_departamentos_list`). -/
structure Departamento where
  codigo : String
  nombre : String
  deriving DecidableEq

/-- Observable events of an orchestrator run. -/
inductive Ev where
  | setupDriver
  | errorNavegacion
  | catalogoVacio
  | sinCoincidencias
  | intento (nombre : String) (ok : Bool)
  | registro (exito : Bool)
  | pausa (segundos : Nat)
  | resumen (exitosas fallidas : Nat)
  | errorPrincipal
  | quit
  deriving DecidableEq

/-- Event classifiers used by the counting theorems. -/
def esIntento : Ev → Bool
  | .intento _ _ => true
  | _ => false

def esRegistro : Ev → Bool
  | .registro _ => true
  | _ => false

def esPausa : Ev → Bool
  | .pausa _ => true
  | _ => false

def esQuit : Ev → Bool
  | .quit => true
  | _ => false

/-- Loop body of `download_all_departamentos` (lines 363-374): for each region
attempt the download, record the outcome in a counter, and sleep 3 seconds
unless this was the last region (`if i < len(departamentos)`). -/
def bucleTodos (intentoOk : Departamento → Bool) : List Departamento → List Ev
  | [] => []
  | d :: resto =>
    Ev.intento d.nombre (intentoOk d) :: Ev.registro (intentoOk d) ::
      (if resto.isEmpty then [] else Ev.pausa 3 :: bucleTodos intentoOk resto)

/-- Loop body of `download_specific_departamentos` (lines 418-420): for each
region attempt the download (return value discarded, no counter) and sleep 3
seconds — after every region, the last one included. -/
def bucleEspecificos (intentoOk : Departamento → Bool) : List Departamento → List Ev
  | [] => []
  | d :: resto =>
    Ev.intento d.nombre (intentoOk d) :: Ev.pausa 3 :: bucleEspecificos intentoOk resto

/-- Case-insensitive name match of lines 407-410:
`dept['nombre'].lower() in [nombre.lower() for nombre in departamentos_nombres]`. -/
def coincide (nombres : List String) (d : Departamento) : Bool :=
  (nombres.map (fun n => n.toList.map Char.toLower)).contains
    (d.nombre.toList.map Char.toLower)

/-- Body of the `try` block of `download_all_departamentos` (lines 343-376):
abort on navigation failure or empty catalog, otherwise run the loop and log
the final summary of the two counters. -/
def cuerpoTodos (navOk : Bool) (departamentos : List Departamento)
    (intentoOk : Departamento → Bool) : List Ev :=
  if !navOk then [.errorNavegacion]
  else if departamentos.isEmpty then [.catalogoVacio]
  else
    bucleTodos intentoOk departamentos ++
      [.resumen (departamentos.countP (fun d => intentoOk d))
                (departamentos.countP (fun d => !intentoOk d))]

/-- Body of the `try` block of `download_specific_departamentos`
(lines 391-420): abort on navigation failure, empty catalog or an empty
case-insensitive filter match, otherwise run the loop — which keeps no
counters and logs no summary. -/
def cuerpoEspecificos (navOk : Bool) (todos : List Departamento)
    (nombres : List String) (intentoOk : Departamento → Bool) : List Ev :=
  if !navOk then [.errorNavegacion]
  else if todos.isEmpty then [.catalogoVacio]
  else if (todos.filter (coincide nombres)).isEmpty then [.sinCoincidencias]
  else bucleEspecificos intentoOk (todos.filter (coincide nombres))

/-- An unexpected exception reaching the `except` clause: the `try` body is
cut short after `n` events and the error is logged (lines 378-379, 422-423). -/
def aplicarInterrupcion (cuerpo : List Ev) : Option Nat → List Ev
  | none => cuerpo
  | some n => cuerpo.take n ++ [.errorPrincipal]

/-- `download_all_departamentos` (lines 336-382) as an event trace.
`setupOk` models whether `setup_driver` succeeds (if it raises, `self.driver`
is still `None` and the `finally` block does not call `quit`); `navOk` is the
result of `navigate_to_servicios_page`; `departamentos` the catalog;
`intentoOk` the per-region outcome of `download_departamento_data`;
`interrupcion` optionally truncates the `try` body to model an unexpected
exception.  The `finally` block appends exactly one `quit` whenever the
driver was set up. -/
def download_all_departamentos (setupOk navOk : Bool)
    (departamentos : List Departamento) (intentoOk : Departamento → Bool)
    (interrupcion : Option Nat) : List Ev :=
  if !setupOk then [.errorPrincipal]
  else
    Ev.setupDriver ::
      aplicarInterrupcion (cuerpoTodos navOk departamentos intentoOk) interrupcion ++
        [.quit]

/-- `download_specific_departamentos` (lines 384-426) as an event trace.
Parameters as in `download_all_departamentos`; `todos` is the full catalog and
`nombres` the caller-supplied name list, filtered case-insensitively.  When the
filter matches nothing the body is just the abort message (line 413). -/
def download_specific_departamentos (setupOk navOk : Bool)
    (todos : List Departamento) (nombres : List String)
    (intentoOk : Departamento → Bool) (interrupcion : Option Nat) : List Ev :=
  if !setupOk then [.errorPrincipal]
  else
    Ev.setupDriver ::
      aplicarInterrupcion (cuerpoEspecificos navOk todos nombres intentoOk)
        interrupcion ++ [.quit]

/-! ### Helper lemmas about the watcher -/

theorem buscarNuevo_eq_some {antes actuales : List String} {f : String}
    (h : buscarNuevo antes actuales = some f) :
    f ∈ actuales ∧ f ∉ antes ∧ esCalificado f = true := by
  have h1 : esCalificado f = true := List.find?_some h
  have h2 : f ∈ archivosNuevos antes actuales := List.mem_of_find?_eq_some h
  unfold archivosNuevos at h2
  rw [List.mem_filter] at h2
  refine ⟨h2.1, ?_, h1⟩
  have := h2.2
  simp only [Bool.not_eq_true'] at this
  simp only [List.contains_eq_any_beq, List.any_eq_false, beq_iff_eq] at this
  intro hmem
  exact this f hmem rfl

theorem sondearDescarga_eq_some {antes : List String} {listados : List (List String)}
    {f : String} {actuales : List String}
    (h : sondearDescarga antes listados = some (f, actuales)) :
    actuales ∈ listados ∧ buscarNuevo antes actuales = some f := by
  induction listados with
  | nil => simp [sondearDescarga] at h
  | cons cur resto ih =>
    unfold sondearDescarga at h
    cases hb : buscarNuevo antes cur with
    | some g =>
      rw [hb] at h
      simp only [Option.some.injEq, Prod.mk.injEq] at h
      exact ⟨by simp [← h.2], by rw [← h.2, hb, h.1]⟩
    | none =>
      rw [hb] at h
      have := ih h
      exact ⟨List.mem_cons_of_mem _ this.1, this.2⟩

theorem sondearDescarga_eq_none_of {antes : List String} {listados : List (List String)}
    (h : ∀ actuales ∈ listados, ∀ f ∈ archivosNuevos antes actuales,
        esCalificado f = false) :
    sondearDescarga antes listados = none := by
  induction listados with
  | nil => rfl
  | cons cur resto ih =>
    have hcur : buscarNuevo antes cur = none := by
      apply List.find?_eq_none.mpr
      intro f hf
      simp [h cur (List.mem_cons_self cur resto) f hf]
    unfold sondearDescarga
    rw [hcur]
    exact ih (fun a ha => h a (List.mem_cons_of_mem _ ha))

/-! ### Claims about the filesystem watcher -/

/-- C1: in every polling cycle a newly-appeared file is selected exactly
according to the qualification predicate (lowercased name ends in `.xls` or
`.xlsx`, does not start with `~`, does not end with `.crdownload`): any
selected file is a new qualifying file; whenever some new qualifying file
exists one is selected; when there is exactly one new file it is selected iff
it qualifies (so a `~`-file or an in-progress file is never selected even when
it is the only new file); and as soon as a tick finds a qualifying file the
polling loop returns at that tick, never consulting the remaining ticks of the
timeout. -/
theorem c1_calificacion_y_parada :
    (∀ antes actuales f, buscarNuevo antes actuales = some f →
        f ∈ actuales ∧ f ∉ antes ∧ esCalificado f = true) ∧
    (∀ antes actuales, (∃ f ∈ archivosNuevos antes actuales, esCalificado f = true) →
        (buscarNuevo antes actuales).isSome = true) ∧
    (∀ antes actuales f, archivosNuevos antes actuales = [f] →
        (buscarNuevo antes actuales = some f ↔ esCalificado f = true)) ∧
    (∀ antes actuales resto f, buscarNuevo antes actuales = some f →
        sondearDescarga antes (actuales :: resto) = some (f, actuales)) := by
  refine ⟨fun _ _ _ h => buscarNuevo_eq_some h, ?_, ?_, ?_⟩
  · intro antes actuales ⟨f, hf, hq⟩
    rw [buscarNuevo, List.find?_isSome]
    exact ⟨f, hf, hq⟩
  · intro antes actuales f h
    unfold buscarNuevo
    rw [h]
    constructor
    · intro hs
      have := List.find?_some hs
      exact this
    · intro hq
      simp [List.find?_cons_of_pos _ hq]
  · intro antes actuales resto f h
    unfold sondearDescarga
    rw [h]

/-- C1 witness: with no prior snapshot and new files `~tmp.xls` (a temporary
marker), `datos.crdownload` (in progress) and `export.xls`, the selected file
is `export.xls`, and the loop returns at that very tick ignoring later ticks. -/
theorem c1_testigo :
    buscarNuevo [] ["~tmp.xls", "datos.crdownload", "export.xls"] = some "export.xls" ∧
    sondearDescarga [] [["~tmp.xls", "datos.crdownload", "export.xls"], ["otro.xls"]] =
      some ("export.xls", ["~tmp.xls", "datos.crdownload", "export.xls"]) := by
  refine ⟨by decide, ?_⟩
  exact c1_calificacion_y_parada.2.2.2 [] ["~tmp.xls", "datos.crdownload", "export.xls"]
    [["otro.xls"]] "export.xls" (by decide)

/-- C2: when no qualifying new file appears at any poll tick the run returns
`False`, deletes nothing, renames nothing, leaves the directory listing as the
environment left it, logs the single timeout message (no internal retry), and
the code's defaults are a 30-second timeout polled at 1-second intervals. -/
theorem c2_timeout_sin_mutacion (dep : String) (antes : List String)
    (listados : List (List String)) (rf : Bool)
    (h : ∀ actuales ∈ listados, ∀ f ∈ archivosNuevos antes actuales,
        esCalificado f = false) :
    (wait_for_download_and_rename dep antes listados rf).ret = false ∧
    (wait_for_download_and_rename dep antes listados rf).removed = [] ∧
    (wait_for_download_and_rename dep antes listados rf).renamed = [] ∧
    (wait_for_download_and_rename dep antes listados rf).dirFinal =
      listados.getLastD antes ∧
    (wait_for_download_and_rename dep antes listados rf).log =
      [.noSeDetectoDescarga dep] ∧
    timeoutPorDefecto = 30 ∧ intervaloSondeo = 1 := by
  have hs := sondearDescarga_eq_none_of h
  unfold wait_for_download_and_rename
  rw [hs]
  exact ⟨rfl, rfl, rfl, rfl, rfl, rfl, rfl⟩

/-- C2 witness: snapshot `["previo.xls"]`, two poll ticks in which only a text
file and a partial download appear: the run fails with no mutation. -/
theorem c2_testigo :
    (wait_for_download_and_rename "Choco" ["previo.xls"]
        [["previo.xls", "notas.txt"], ["previo.xls", "datos.xls.crdownload"]]
        false).ret = false ∧
    (wait_for_download_and_rename "Choco" ["previo.xls"]
        [["previo.xls", "notas.txt"], ["previo.xls", "datos.xls.crdownload"]]
        false).removed = [] ∧
    (wait_for_download_and_rename "Choco" ["previo.xls"]
        [["previo.xls", "notas.txt"], ["previo.xls", "datos.xls.crdownload"]]
        false).renamed = [] := by
  have h := c2_timeout_sin_mutacion "Choco" ["previo.xls"]
    [["previo.xls", "notas.txt"], ["previo.xls", "datos.xls.crdownload"]]
    false (by decide)
  exact ⟨h.1, h.2.1, h.2.2.1⟩

/-- Unfolding lemma: once the polling loop has found `nuevo` in the listing
`actuales`, the run is the rename phase of lines 190-210 applied there. -/
theorem wait_found (dep : String) (antes : List String)
    (listados : List (List String)) (rf : Bool) (nuevo : String)
    (actuales : List String)
    (hfind : sondearDescarga antes listados = some (nuevo, actuales)) :
    wait_for_download_and_rename dep antes listados rf =
      (let nombre_nuevo := dep ++ splitextExt nuevo
       let objetivoExiste := actuales.contains nombre_nuevo
       let dirTrasRemove := if objetivoExiste then actuales.erase nombre_nuevo else actuales
       let logRemove : List LogMsg :=
         if objetivoExiste then [.archivoExistenteEliminado nombre_nuevo] else []
       if !rf && dirTrasRemove.contains nuevo then
         { ret := true
           removed := if objetivoExiste then [nombre_nuevo] else []
           renamed := [(nuevo, nombre_nuevo)]
           dirFinal := dirTrasRemove.erase nuevo ++ [nombre_nuevo]
           log := logRemove ++ [.archivoRenombrado nuevo nombre_nuevo] }
       else
         { ret := false
           removed := if objetivoExiste then [nombre_nuevo] else []
           renamed := []
           dirFinal := dirTrasRemove
           log := logRemove ++ [.errorRenombrando] }) := by
  unfold wait_for_download_and_rename
  rw [hfind]

/-- C3: in every run that finds a qualifying new file and whose filesystem
operations succeed (the run reports success), the rename target is the
expected base name plus the source file's extension; a pre-existing file with
the target name — the idempotence case where the final artifact's name is
already taken — is deleted first, while nothing is deleted otherwise;
afterwards exactly one file with the target name exists and (when the source
name differs from the target) no file with the source's original name
remains. -/
theorem c3_renombrado_exitoso (dep : String) (antes : List String)
    (listados : List (List String)) (rf : Bool) (nuevo : String)
    (actuales : List String)
    (hfind : sondearDescarga antes listados = some (nuevo, actuales))
    (hnodup : actuales.Nodup)
    (hexito : (wait_for_download_and_rename dep antes listados rf).ret = true) :
    (wait_for_download_and_rename dep antes listados rf).renamed =
      [(nuevo, dep ++ splitextExt nuevo)] ∧
    (actuales.contains (dep ++ splitextExt nuevo) = true →
      (wait_for_download_and_rename dep antes listados rf).removed =
        [dep ++ splitextExt nuevo]) ∧
    (actuales.contains (dep ++ splitextExt nuevo) = false →
      (wait_for_download_and_rename dep antes listados rf).removed = []) ∧
    (wait_for_download_and_rename dep antes listados rf).dirFinal.count
      (dep ++ splitextExt nuevo) = 1 ∧
    (nuevo ≠ dep ++ splitextExt nuevo →
      nuevo ∉ (wait_for_download_and_rename dep antes listados rf).dirFinal) := by
  set nombre_nuevo := dep ++ splitextExt nuevo with hnn
  by_cases hobj : nombre_nuevo ∈ actuales
  · by_cases hren : rf = false ∧ nuevo ∈ actuales.erase nombre_nuevo
    · have hres : wait_for_download_and_rename dep antes listados rf =
          { ret := true
            removed := [nombre_nuevo]
            renamed := [(nuevo, nombre_nuevo)]
            dirFinal := (actuales.erase nombre_nuevo).erase nuevo ++ [nombre_nuevo]
            log := [.archivoExistenteEliminado nombre_nuevo,
                    .archivoRenombrado nuevo nombre_nuevo] } := by
        rw [wait_found dep antes listados rf nuevo actuales hfind]
        simp [hobj, hren.1, hren.2]
      rw [hres]
      have hne : nombre_nuevo ∉ actuales.erase nombre_nuevo := by
        intro hmem
        exact ((hnodup.mem_erase_iff).mp hmem).1 rfl
      have hne2 : nombre_nuevo ∉ (actuales.erase nombre_nuevo).erase nuevo :=
        fun hmem => hne (List.mem_of_mem_erase hmem)
      refine ⟨rfl, fun _ => rfl, ?_, ?_, ?_⟩
      · intro hc
        exact absurd hobj (by simpa using hc)
      · rw [List.count_append, List.count_eq_zero.mpr hne2]
        simp
      · intro hdist hmem
        rcases List.mem_append.mp hmem with hmem | hmem
        · exact (((hnodup.erase nombre_nuevo).mem_erase_iff).mp hmem).1 rfl
        · exact hdist (List.mem_singleton.mp hmem)
    · exfalso
      have hres : wait_for_download_and_rename dep antes listados rf =
          { ret := false
            removed := [nombre_nuevo]
            renamed := []
            dirFinal := actuales.erase nombre_nuevo
            log := [.archivoExistenteEliminado nombre_nuevo, .errorRenombrando] } := by
        rw [wait_found dep antes listados rf nuevo actuales hfind]
        simp [hobj, hren]
      rw [hres] at hexito
      exact Bool.noConfusion hexito
  · by_cases hren : rf = false ∧ nuevo ∈ actuales
    · have hres : wait_for_download_and_rename dep antes listados rf =
          { ret := true
            removed := []
            renamed := [(nuevo, nombre_nuevo)]
            dirFinal := actuales.erase nuevo ++ [nombre_nuevo]
            log := [.archivoRenombrado nuevo nombre_nuevo] } := by
        rw [wait_found dep antes listados rf nuevo actuales hfind]
        simp [hobj, hren.1, hren.2]
      rw [hres]
      have hne2 : nombre_nuevo ∉ actuales.erase nuevo :=
        fun hmem => hobj (List.mem_of_mem_erase hmem)
      refine ⟨rfl, ?_, fun _ => rfl, ?_, ?_⟩
      · intro hc
        exact absurd (by simpa using hc) (not_not_intro hobj)
      · rw [List.count_append, List.count_eq_zero.mpr hne2]
        simp
      · intro hdist hmem
        rcases List.mem_append.mp hmem with hmem | hmem
        · exact ((hnodup.mem_erase_iff).mp hmem).1 rfl
        · exact hdist (List.mem_singleton.mp hmem)
    · exfalso
      have hres : wait_for_download_and_rename dep antes listados rf =
          { ret := false
            removed := []
            renamed := []
            dirFinal := actuales
            log := [.errorRenombrando] } := by
        rw [wait_found dep antes listados rf nuevo actuales hfind]
        simp [hobj, hren]
      rw [hres] at hexito
      exact Bool.noConfusion hexito

/-- C3 witness: snapshot holds a stale `Antioquia.xls`; a new `export.xls`
appears; the run succeeds, deletes the stale artifact, renames the download,
and leaves exactly one `Antioquia.xls` and no `export.xls`. -/
theorem c3_testigo :
    (wait_for_download_and_rename "Antioquia" ["Antioquia.xls"]
        [["Antioquia.xls", "export.xls"]] false).renamed =
      [("export.xls", "Antioquia" ++ splitextExt "export.xls")] ∧
    (wait_for_download_and_rename "Antioquia" ["Antioquia.xls"]
        [["Antioquia.xls", "export.xls"]] false).dirFinal.count
      ("Antioquia" ++ splitextExt "export.xls") = 1 ∧
    "export.xls" ∉ (wait_for_download_and_rename "Antioquia" ["Antioquia.xls"]
        [["Antioquia.xls", "export.xls"]] false).dirFinal := by
  have h := c3_renombrado_exitoso "Antioquia" ["Antioquia.xls"]
    [["Antioquia.xls", "export.xls"]] false "export.xls"
    ["Antioquia.xls", "export.xls"] (by decide) (by decide) (by decide)
  exact ⟨h.1, h.2.2.2.1, h.2.2.2.2 (by decide)⟩

/-- C4: frame condition of every run — at most one file is deleted and at
most one rename is performed; when a qualifying file `nuevo` was found, every
deleted file is the pre-existing same-named target and every rename moves
`nuevo` to the target name, and any file distinct from `nuevo` and from the
target name is in the final directory iff it was in the listing at the found
tick; when no file was found, nothing is deleted or renamed. -/
theorem c4_condicion_de_marco (dep : String) (antes : List String)
    (listados : List (List String)) (rf : Bool) :
    ((wait_for_download_and_rename dep antes listados rf).removed.length ≤ 1 ∧
     (wait_for_download_and_rename dep antes listados rf).renamed.length ≤ 1) ∧
    (∀ nuevo actuales, sondearDescarga antes listados = some (nuevo, actuales) →
      (∀ f ∈ (wait_for_download_and_rename dep antes listados rf).removed,
          f = dep ++ splitextExt nuevo ∧ f ∈ actuales) ∧
      (∀ p ∈ (wait_for_download_and_rename dep antes listados rf).renamed,
          p = (nuevo, dep ++ splitextExt nuevo)) ∧
      (∀ f, f ≠ nuevo → f ≠ dep ++ splitextExt nuevo →
        (f ∈ (wait_for_download_and_rename dep antes listados rf).dirFinal ↔
         f ∈ actuales))) ∧
    (sondearDescarga antes listados = none →
      (wait_for_download_and_rename dep antes listados rf).removed = [] ∧
      (wait_for_download_and_rename dep antes listados rf).renamed = []) := by
  refine ⟨?_, ?_, ?_⟩
  · cases h : sondearDescarga antes listados with
    | none =>
      unfold wait_for_download_and_rename
      rw [h]
      exact ⟨by simp, by simp⟩
    | some par =>
      obtain ⟨nuevo, actuales⟩ := par
      rw [wait_found dep antes listados rf nuevo actuales h]
      simp only
      split_ifs <;> simp
  · intro nuevo actuales hfind
    rw [wait_found dep antes listados rf nuevo actuales hfind]
    simp only
    split_ifs with h1 h2 h3 <;>
      refine ⟨?_, ?_, ?_⟩ <;>
        try intro f hf1 hf2
    all_goals
      simp_all [List.mem_append, List.mem_erase_of_ne]
  · intro h
    unfold wait_for_download_and_rename
    rw [h]
    exact ⟨rfl, rfl⟩

/-- C4 witness: a bystander file `otro.xls` present before and during the run
is still present after it (frame condition applied at a concrete run). -/
theorem c4_testigo :
    ("otro.xls" ∈ (wait_for_download_and_rename "Boyaca" ["otro.xls"]
        [["otro.xls", "datos.xls"]] false).dirFinal ↔
      "otro.xls" ∈ (["otro.xls", "datos.xls"] : List String)) := by
  have h := c4_condicion_de_marco "Boyaca" ["otro.xls"] [["otro.xls", "datos.xls"]] false
  exact (h.2.1 "datos.xls" ["otro.xls", "datos.xls"] (by decide)).2.2 "otro.xls"
    (by decide) (by decide)

/-- C5 counterexample: the function's result is a bare boolean, so it carries
neither the final path nor a machine-readable reason — a timeout run and a
rename-error run return the same value (`False`), their different reasons
appearing only in the log; and two success runs with different final artifacts
return the same value (`True`), the path appearing only in the state/log. -/
theorem c5_contraejemplo :
    ((wait_for_download_and_rename "Cauca" [] [] false).log =
        [.noSeDetectoDescarga "Cauca"] ∧
     (wait_for_download_and_rename "Cauca" ["Cauca.xls"]
        [["Cauca.xls", "nuevo.xls"]] true).log =
        [.archivoExistenteEliminado "Cauca.xls", .errorRenombrando] ∧
     (wait_for_download_and_rename "Cauca" [] [] false).ret =
       (wait_for_download_and_rename "Cauca" ["Cauca.xls"]
          [["Cauca.xls", "nuevo.xls"]] true).ret) ∧
    ((wait_for_download_and_rename "Cauca" [] [["uno.xls"]] false).dirFinal ≠
       (wait_for_download_and_rename "Huila" [] [["dos.xls"]] false).dirFinal ∧
     (wait_for_download_and_rename "Cauca" [] [["uno.xls"]] false).ret =
       (wait_for_download_and_rename "Huila" [] [["dos.xls"]] false).ret) := by
  decide

/-- C5 amended: every run returns `True` or `False`; a `True` run performed
exactly one rename and its last log line carries the renamed file, while a
`False` run performed no rename and its last log line is either the timeout
message or the rename-error message — the reason is distinguished by the log,
not by the returned value. -/
theorem c5_resultado (dep : String) (antes : List String)
    (listados : List (List String)) (rf : Bool) :
    ((wait_for_download_and_rename dep antes listados rf).ret = true →
      ∃ viejo nombre, (wait_for_download_and_rename dep antes listados rf).renamed =
          [(viejo, nombre)] ∧
        (wait_for_download_and_rename dep antes listados rf).log.getLast? =
          some (.archivoRenombrado viejo nombre)) ∧
    ((wait_for_download_and_rename dep antes listados rf).ret = false →
      (wait_for_download_and_rename dep antes listados rf).renamed = [] ∧
      ((wait_for_download_and_rename dep antes listados rf).log.getLast? =
          some (.noSeDetectoDescarga dep) ∨
       (wait_for_download_and_rename dep antes listados rf).log.getLast? =
          some .errorRenombrando)) := by
  cases h : sondearDescarga antes listados with
  | none =>
    have hres : wait_for_download_and_rename dep antes listados rf =
        { ret := false, removed := [], renamed := [],
          dirFinal := listados.getLastD antes,
          log := [.noSeDetectoDescarga dep] } := by
      unfold wait_for_download_and_rename
      rw [h]
    rw [hres]
    exact ⟨fun hc => Bool.noConfusion hc, fun _ => ⟨rfl, Or.inl rfl⟩⟩
  | some par =>
    obtain ⟨nuevo, actuales⟩ := par
    rw [wait_found dep antes listados rf nuevo actuales h]
    simp only
    split_ifs with h1 h2 h3
    · exact ⟨fun _ => ⟨nuevo, dep ++ splitextExt nuevo, rfl, by simp⟩,
        fun hc => hc.elim⟩
    · exact ⟨fun hc => hc.elim, fun _ => ⟨rfl, Or.inr (by simp)⟩⟩
    · exact ⟨fun _ => ⟨nuevo, dep ++ splitextExt nuevo, rfl, by simp⟩,
        fun hc => hc.elim⟩
    · exact ⟨fun hc => hc.elim, fun _ => ⟨rfl, Or.inr (by simp)⟩⟩

/-- C5 witness: the amended result/log classification applied to a concrete
timeout run. -/
theorem c5_testigo :
    (wait_for_download_and_rename "Sucre" ["viejo.xls"] [["viejo.xls"]] false).renamed
        = [] ∧
    ((wait_for_download_and_rename "Sucre" ["viejo.xls"] [["viejo.xls"]]
        false).log.getLast? = some (.noSeDetectoDescarga "Sucre") ∨
     (wait_for_download_and_rename "Sucre" ["viejo.xls"] [["viejo.xls"]]
        false).log.getLast? = some .errorRenombrando) := by
  exact (c5_resultado "Sucre" ["viejo.xls"] [["viejo.xls"]] false).2 (by decide)

/-- C10: a concrete execution in which a qualifying `export.xls` is found, the
pre-existing target `Antioquia.xls` is deleted, the rename then raises
`OSError`, and the run returns failure with the directory mutated: the old
artifact is gone while the unrenamed download remains — a rename-error failure
is not atomic with respect to directory state. -/
theorem c10_renombrado_no_atomico :
    (wait_for_download_and_rename "Antioquia" ["Antioquia.xls"]
        [["Antioquia.xls", "export.xls"]] true).ret = false ∧
    (wait_for_download_and_rename "Antioquia" ["Antioquia.xls"]
        [["Antioquia.xls", "export.xls"]] true).removed = ["Antioquia.xls"] ∧
    (wait_for_download_and_rename "Antioquia" ["Antioquia.xls"]
        [["Antioquia.xls", "export.xls"]] true).renamed = [] ∧
    (wait_for_download_and_rename "Antioquia" ["Antioquia.xls"]
        [["Antioquia.xls", "export.xls"]] true).dirFinal = ["export.xls"] ∧
    "Antioquia.xls" ∉ (wait_for_download_and_rename "Antioquia" ["Antioquia.xls"]
        [["Antioquia.xls", "export.xls"]] true).dirFinal ∧
    "export.xls" ∈ (wait_for_download_and_rename "Antioquia" ["Antioquia.xls"]
        [["Antioquia.xls", "export.xls"]] true).dirFinal ∧
    "Antioquia.xls" ∈ (["Antioquia.xls"] : List String) := by
  decide

/-! ### Helper lemmas about the orchestrator loops -/

theorem bucleTodos_singleton (f : Departamento → Bool) (d : Departamento) :
    bucleTodos f [d] = [Ev.intento d.nombre (f d), Ev.registro (f d)] := by
  simp [bucleTodos]

theorem bucleTodos_cons_cons (f : Departamento → Bool) (d e : Departamento)
    (t : List Departamento) :
    bucleTodos f (d :: e :: t) =
      Ev.intento d.nombre (f d) :: Ev.registro (f d) :: Ev.pausa 3 ::
        bucleTodos f (e :: t) := by
  simp [bucleTodos]

theorem bucleTodos_countP_intento (f : Departamento → Bool) (ds : List Departamento) :
    (bucleTodos f ds).countP esIntento = ds.length := by
  induction ds with
  | nil => rfl
  | cons d resto ih =>
    cases resto with
    | nil => simp [bucleTodos_singleton, esIntento, esRegistro, List.countP_cons]
    | cons e t =>
      rw [bucleTodos_cons_cons]
      simp [List.countP_cons, esIntento, esRegistro, esPausa, ih]

theorem bucleTodos_countP_registro (f : Departamento → Bool) (ds : List Departamento) :
    (bucleTodos f ds).countP esRegistro = ds.length := by
  induction ds with
  | nil => rfl
  | cons d resto ih =>
    cases resto with
    | nil => simp [bucleTodos_singleton, esIntento, esRegistro, List.countP_cons]
    | cons e t =>
      rw [bucleTodos_cons_cons]
      simp [List.countP_cons, esIntento, esRegistro, esPausa, ih]

theorem bucleTodos_countP_pausa (f : Departamento → Bool) (ds : List Departamento) :
    (bucleTodos f ds).countP esPausa = ds.length - 1 := by
  induction ds with
  | nil => rfl
  | cons d resto ih =>
    cases resto with
    | nil => simp [bucleTodos_singleton, esPausa, List.countP_cons]
    | cons e t =>
      rw [bucleTodos_cons_cons]
      simp only [List.countP_cons, esIntento, esRegistro, esPausa, ih]
      simp

theorem bucleTodos_countP_quit (f : Departamento → Bool) (ds : List Departamento) :
    (bucleTodos f ds).countP esQuit = 0 := by
  induction ds with
  | nil => rfl
  | cons d resto ih =>
    cases resto with
    | nil => simp [bucleTodos_singleton, esQuit, List.countP_cons]
    | cons e t =>
      rw [bucleTodos_cons_cons]
      simp [List.countP_cons, esQuit, ih]

theorem bucleTodos_mem_intento {f : Departamento → Bool} {ds : List Departamento}
    {d : Departamento} (hd : d ∈ ds) :
    Ev.intento d.nombre (f d) ∈ bucleTodos f ds := by
  induction ds with
  | nil => cases hd
  | cons e resto ih =>
    rcases List.mem_cons.mp hd with h | h
    · subst h
      cases resto with
      | nil => rw [bucleTodos_singleton]; simp
      | cons e2 t => rw [bucleTodos_cons_cons]; simp
    · cases resto with
      | nil => cases h
      | cons e2 t =>
        rw [bucleTodos_cons_cons]
        exact List.mem_cons_of_mem _ (List.mem_cons_of_mem _
          (List.mem_cons_of_mem _ (ih h)))

theorem bucleEspecificos_countP_intento (f : Departamento → Bool)
    (ds : List Departamento) :
    (bucleEspecificos f ds).countP esIntento = ds.length := by
  induction ds with
  | nil => rfl
  | cons d resto ih => simp [bucleEspecificos, List.countP_cons, esIntento, esPausa, ih]

theorem bucleEspecificos_countP_registro (f : Departamento → Bool)
    (ds : List Departamento) :
    (bucleEspecificos f ds).countP esRegistro = 0 := by
  induction ds with
  | nil => rfl
  | cons d resto ih => simp [bucleEspecificos, List.countP_cons, esRegistro, ih]

theorem bucleEspecificos_countP_pausa (f : Departamento → Bool)
    (ds : List Departamento) :
    (bucleEspecificos f ds).countP esPausa = ds.length := by
  induction ds with
  | nil => rfl
  | cons d resto ih => simp [bucleEspecificos, List.countP_cons, esIntento, esPausa, ih]

theorem bucleEspecificos_countP_quit (f : Departamento → Bool)
    (ds : List Departamento) :
    (bucleEspecificos f ds).countP esQuit = 0 := by
  induction ds with
  | nil => rfl
  | cons d resto ih => simp [bucleEspecificos, List.countP_cons, esQuit, ih]

theorem bucleEspecificos_mem_intento {f : Departamento → Bool} {ds : List Departamento}
    {d : Departamento} (hd : d ∈ ds) :
    Ev.intento d.nombre (f d) ∈ bucleEspecificos f ds := by
  induction ds with
  | nil => cases hd
  | cons e resto ih =>
    rcases List.mem_cons.mp hd with h | h
    · subst h
      simp [bucleEspecificos]
    · simp only [bucleEspecificos, List.mem_cons]
      right; right
      exact ih h

theorem countP_not_add (p : Departamento → Bool) (l : List Departamento) :
    l.countP p + l.countP (fun a => !p a) = l.length := by
  induction l with
  | nil => rfl
  | cons x t ih =>
    cases h : p x <;> simp [List.countP_cons, h] <;> omega

theorem cuerpoTodos_countP_quit (navOk : Bool) (ds : List Departamento)
    (f : Departamento → Bool) :
    (cuerpoTodos navOk ds f).countP esQuit = 0 := by
  unfold cuerpoTodos
  split_ifs <;>
    simp [esQuit, List.countP_cons, List.countP_append, bucleTodos_countP_quit]

theorem cuerpoEspecificos_countP_quit (navOk : Bool) (todos : List Departamento)
    (nombres : List String) (f : Departamento → Bool) :
    (cuerpoEspecificos navOk todos nombres f).countP esQuit = 0 := by
  unfold cuerpoEspecificos
  split_ifs <;>
    simp [esQuit, List.countP_cons, bucleEspecificos_countP_quit]

theorem aplicarInterrupcion_countP_quit {cuerpo : List Ev}
    (h : cuerpo.countP esQuit = 0) (intr : Option Nat) :
    (aplicarInterrupcion cuerpo intr).countP esQuit = 0 := by
  cases intr with
  | none => exact h
  | some n =>
    have hle := (List.take_sublist n cuerpo).countP_le (p := esQuit)
    simp only [aplicarInterrupcion, List.countP_append]
    have : (List.take n cuerpo).countP esQuit = 0 := by omega
    simp [this, esQuit, List.countP_cons]

/-- C9: whenever a browser session was acquired (`setup_driver` succeeded),
each orchestrator's `finally` block releases it exactly once — on the normal
path, on every early abort (navigation failure, empty catalog, zero filter
matches) and when an unexpected exception cuts the `try` body anywhere: the
trace contains exactly one `quit` event, so the session is neither released
twice nor leaked. -/
theorem c9_quit_una_vez (navOk : Bool) (departamentos todos : List Departamento)
    (nombres : List String) (intentoOk : Departamento → Bool)
    (interrupcionA interrupcionE : Option Nat) :
    (download_all_departamentos true navOk departamentos intentoOk
        interrupcionA).countP esQuit = 1 ∧
    (download_specific_departamentos true navOk todos nombres intentoOk
        interrupcionE).countP esQuit = 1 := by
  constructor
  · have h := aplicarInterrupcion_countP_quit
      (cuerpoTodos_countP_quit navOk departamentos intentoOk) interrupcionA
    unfold download_all_departamentos
    simp [List.countP_cons, List.countP_append, esQuit, h]
  · have h := aplicarInterrupcion_countP_quit
      (cuerpoEspecificos_countP_quit navOk todos nombres intentoOk) interrupcionE
    unfold download_specific_departamentos
    simp [List.countP_cons, List.countP_append, esQuit, h]

/-- C6 counterexample: a filtered-mode batch over one matching region attempts
it but records no outcome at all — the loop of lines 418-420 discards the
attempt's return value, keeps no counters and emits no summary event, so
"each attempt's outcome is recorded" and "successes + failures equals the
number attempted" fail for `download_specific_departamentos`. -/
theorem c6_contraejemplo :
    (download_specific_departamentos true true [⟨"05", "Antioquia"⟩] ["Antioquia"]
        (fun _ => false) none).countP esIntento = 1 ∧
    (download_specific_departamentos true true [⟨"05", "Antioquia"⟩] ["Antioquia"]
        (fun _ => false) none).countP esRegistro = 0 ∧
    (∀ e ∈ download_specific_departamentos true true [⟨"05", "Antioquia"⟩]
        ["Antioquia"] (fun _ => false) none,
      ∀ s f : Nat, e ≠ Ev.resumen s f) := by
  refine ⟨by decide, by decide, ?_⟩
  intro e he s f
  have : download_specific_departamentos true true [⟨"05", "Antioquia"⟩] ["Antioquia"]
      (fun _ => false) none =
      [.setupDriver, .intento "Antioquia" false, .pausa 3, .quit] := by decide
  rw [this] at he
  simp only [List.mem_cons, List.not_mem_nil, or_false] at he
  rcases he with h | h | h | h <;> subst h <;> simp

/-- C6 amended: in full-catalog mode every region is attempted regardless of
other regions' outcomes, every attempt is counted, the final summary carries
the two counters, and successes + failures equals the number attempted; in
filtered mode every matched region is likewise attempted regardless of
failures, but no outcome is recorded (no counter events at all). -/
theorem c6_lotes_corregido (intentoOk : Departamento → Bool) :
    (∀ departamentos : List Departamento, departamentos ≠ [] →
      (∀ d ∈ departamentos, Ev.intento d.nombre (intentoOk d) ∈
          download_all_departamentos true true departamentos intentoOk none) ∧
      (download_all_departamentos true true departamentos intentoOk none).countP
          esIntento = departamentos.length ∧
      (download_all_departamentos true true departamentos intentoOk none).countP
          esRegistro = departamentos.length ∧
      Ev.resumen (departamentos.countP (fun d => intentoOk d))
          (departamentos.countP (fun d => !intentoOk d)) ∈
        download_all_departamentos true true departamentos intentoOk none ∧
      departamentos.countP (fun d => intentoOk d) +
        departamentos.countP (fun d => !intentoOk d) = departamentos.length) ∧
    (∀ todos : List Departamento, ∀ nombres : List String,
      todos.filter (coincide nombres) ≠ [] →
      (∀ d ∈ todos.filter (coincide nombres),
        Ev.intento d.nombre (intentoOk d) ∈
          download_specific_departamentos true true todos nombres intentoOk none) ∧
      (download_specific_departamentos true true todos nombres intentoOk
          none).countP esIntento = (todos.filter (coincide nombres)).length ∧
      (download_specific_departamentos true true todos nombres intentoOk
          none).countP esRegistro = 0) := by
  constructor
  · intro ds hne
    have hc : cuerpoTodos true ds intentoOk =
        bucleTodos intentoOk ds ++
          [.resumen (ds.countP (fun d => intentoOk d))
                    (ds.countP (fun d => !intentoOk d))] := by
      unfold cuerpoTodos
      simp [List.isEmpty_iff, hne]
    have htr : download_all_departamentos true true ds intentoOk none =
        Ev.setupDriver :: (bucleTodos intentoOk ds ++
          [.resumen (ds.countP (fun d => intentoOk d))
                    (ds.countP (fun d => !intentoOk d))]) ++ [.quit] := by
      unfold download_all_departamentos aplicarInterrupcion
      simp [hc]
    refine ⟨?_, ?_, ?_, ?_, countP_not_add intentoOk ds⟩
    · intro d hd
      rw [htr]
      exact List.mem_cons_of_mem _ (List.mem_append_left _
        (List.mem_append_left _ (bucleTodos_mem_intento hd)))
    · rw [htr]
      simp [List.countP_cons, List.countP_append, esIntento,
        bucleTodos_countP_intento]
    · rw [htr]
      simp [List.countP_cons, List.countP_append, esRegistro,
        bucleTodos_countP_registro]
    · rw [htr]
      simp
  · intro todos nombres hne
    have htodos : todos ≠ [] := by
      intro h
      rw [h] at hne
      exact hne rfl
    have hc : cuerpoEspecificos true todos nombres intentoOk =
        bucleEspecificos intentoOk (todos.filter (coincide nombres)) := by
      unfold cuerpoEspecificos
      simp [List.isEmpty_iff, htodos, hne]
    have htr : download_specific_departamentos true true todos nombres intentoOk none =
        Ev.setupDriver ::
          bucleEspecificos intentoOk (todos.filter (coincide nombres)) ++ [.quit] := by
      unfold download_specific_departamentos aplicarInterrupcion
      simp [hc]
    refine ⟨?_, ?_, ?_⟩
    · intro d hd
      rw [htr]
      exact List.mem_cons_of_mem _
        (List.mem_append_left _ (bucleEspecificos_mem_intento hd))
    · rw [htr]
      simp [List.countP_cons, List.countP_append, esIntento,
        bucleEspecificos_countP_intento]
    · rw [htr]
      simp [List.countP_cons, List.countP_append, esRegistro,
        bucleEspecificos_countP_registro]

/-- C6 witness: the amended full-catalog property at a concrete three-region
batch whose second region fails: 3 attempts, 3 recordings, summary `2, 1`. -/
theorem c6_testigo :
    (download_all_departamentos true true
        [⟨"05", "Antioquia"⟩, ⟨"08", "Atlantico"⟩, ⟨"11", "Bogota"⟩]
        (fun d => d.codigo != "08") none).countP esIntento = 3 ∧
    (download_all_departamentos true true
        [⟨"05", "Antioquia"⟩, ⟨"08", "Atlantico"⟩, ⟨"11", "Bogota"⟩]
        (fun d => d.codigo != "08") none).countP esRegistro = 3 ∧
    Ev.resumen 2 1 ∈ download_all_departamentos true true
        [⟨"05", "Antioquia"⟩, ⟨"08", "Atlantico"⟩, ⟨"11", "Bogota"⟩]
        (fun d => d.codigo != "08") none := by
  have h := (c6_lotes_corregido (fun d => d.codigo != "08")).1
    [⟨"05", "Antioquia"⟩, ⟨"08", "Atlantico"⟩, ⟨"11", "Bogota"⟩] (by decide)
  refine ⟨h.2.1, h.2.2.1, ?_⟩
  have hr := h.2.2.2.1
  simpa using hr

/-- C7 counterexample: in filtered mode the pacing sleep is inside the loop
body unconditionally (line 420), so a one-region batch sleeps after its last
(only) attempt — the trace ends `intento, pausa 3, quit` — contradicting "no
pacing sleep occurs after the last region attempt" for every batch mode. -/
theorem c7_contraejemplo :
    download_specific_departamentos true true [⟨"05", "Antioquia"⟩] ["Antioquia"]
        (fun _ => true) none =
      [.setupDriver, .intento "Antioquia" true, .pausa 3, .quit] ∧
    (download_specific_departamentos true true [⟨"05", "Antioquia"⟩] ["Antioquia"]
        (fun _ => true) none).countP esPausa = 1 := by
  decide

/-- C7 amended: in full-catalog mode a fixed 3-second pacing sleep occurs
between consecutive region attempts and none after the last (the loop emits
`departamentos.length - 1` sleeps); in filtered mode the 3-second sleep also
occurs after the last attempt — one sleep per matched region. -/
theorem c7_pausas_corregido (intentoOk : Departamento → Bool) :
    (∀ d : Departamento, ∀ resto : List Departamento, resto ≠ [] →
        bucleTodos intentoOk (d :: resto) =
          Ev.intento d.nombre (intentoOk d) :: Ev.registro (intentoOk d) ::
            Ev.pausa 3 :: bucleTodos intentoOk resto) ∧
    (∀ d : Departamento, bucleTodos intentoOk [d] =
        [Ev.intento d.nombre (intentoOk d), Ev.registro (intentoOk d)]) ∧
    (∀ departamentos : List Departamento,
        (download_all_departamentos true true departamentos intentoOk none).countP
          esPausa = departamentos.length - 1) ∧
    (∀ d : Departamento, ∀ resto : List Departamento,
        bucleEspecificos intentoOk (d :: resto) =
          Ev.intento d.nombre (intentoOk d) :: Ev.pausa 3 ::
            bucleEspecificos intentoOk resto) ∧
    (∀ todos : List Departamento, ∀ nombres : List String,
        (download_specific_departamentos true true todos nombres intentoOk
          none).countP esPausa = (todos.filter (coincide nombres)).length) := by
  refine ⟨?_, bucleTodos_singleton intentoOk, ?_, fun d resto => rfl, ?_⟩
  · intro d resto hne
    cases resto with
    | nil => exact absurd rfl hne
    | cons e t => exact bucleTodos_cons_cons intentoOk d e t
  · intro ds
    unfold download_all_departamentos aplicarInterrupcion cuerpoTodos
    cases hds : ds.isEmpty with
    | true =>
      rw [List.isEmpty_iff] at hds
      subst hds
      simp [esPausa, List.countP_cons]
    | false =>
      simp only [Bool.not_true, Bool.false_eq_true, if_false, hds]
      simp [List.countP_cons, List.countP_append, esPausa,
        bucleTodos_countP_pausa]
  · intro todos nombres
    unfold download_specific_departamentos aplicarInterrupcion cuerpoEspecificos
    cases htodos : todos.isEmpty with
    | true =>
      rw [List.isEmpty_iff] at htodos
      subst htodos
      simp [esPausa, List.countP_cons]
    | false =>
      cases hf : (todos.filter (coincide nombres)).isEmpty with
      | true =>
        rw [List.isEmpty_iff] at hf
        simp only [Bool.not_true, Bool.false_eq_true, if_false, htodos, hf]
        simp [hf, esPausa, List.countP_cons]
      | false =>
        simp only [Bool.not_true, Bool.false_eq_true, if_false, htodos, hf]
        simp [List.countP_cons, List.countP_append, esPausa,
          bucleEspecificos_countP_pausa]

/-- C7 witness: the amended pacing property at a concrete two-region
full-catalog batch: one sleep, placed between the two attempts. -/
theorem c7_testigo :
    bucleTodos (fun _ => true) [⟨"05", "Antioquia"⟩, ⟨"08", "Atlantico"⟩] =
      Ev.intento "Antioquia" true :: Ev.registro true :: Ev.pausa 3 ::
        bucleTodos (fun _ => true) [⟨"08", "Atlantico"⟩] ∧
    (download_all_departamentos true true
        [⟨"05", "Antioquia"⟩, ⟨"08", "Atlantico"⟩] (fun _ => true) none).countP
      esPausa = 1 := by
  have h := c7_pausas_corregido (fun _ => true)
  exact ⟨h.1 ⟨"05", "Antioquia"⟩ [⟨"08", "Atlantico"⟩] (by decide),
    h.2.2.1 [⟨"05", "Antioquia"⟩, ⟨"08", "Atlantico"⟩]⟩

/-- C8: a filtered-mode batch whose name list matches no catalog region
(case-insensitively) aborts right after catalog retrieval: the trace is just
setup, the abort message and the session release — zero attempts, zero
recorded outcomes, zero pacing sleeps, and the driver still quits once. -/
theorem c8_abortar_sin_coincidencias (todos : List Departamento)
    (nombres : List String) (intentoOk : Departamento → Bool)
    (hcat : todos ≠ [])
    (hfiltro : todos.filter (coincide nombres) = []) :
    download_specific_departamentos true true todos nombres intentoOk none =
      [.setupDriver, .sinCoincidencias, .quit] ∧
    (download_specific_departamentos true true todos nombres intentoOk
        none).countP esIntento = 0 ∧
    (download_specific_departamentos true true todos nombres intentoOk
        none).countP esRegistro = 0 ∧
    (download_specific_departamentos true true todos nombres intentoOk
        none).countP esPausa = 0 ∧
    (download_specific_departamentos true true todos nombres intentoOk
        none).countP esQuit = 1 := by
  have htr : download_specific_departamentos true true todos nombres intentoOk none =
      [.setupDriver, .sinCoincidencias, .quit] := by
    unfold download_specific_departamentos aplicarInterrupcion cuerpoEspecificos
    simp [List.isEmpty_iff, hcat, hfiltro]
  rw [htr]
  exact ⟨rfl, by decide, by decide, by decide, by decide⟩

/-- C8 witness: the abort at a concrete catalog `[Antioquia]` with the
non-matching request `[Guainia]`. -/
theorem c8_testigo :
    download_specific_departamentos true true [⟨"05", "Antioquia"⟩] ["Guainia"]
        (fun _ => true) none = [.setupDriver, .sinCoincidencias, .quit] ∧
    (download_specific_departamentos true true [⟨"05", "Antioquia"⟩] ["Guainia"]
        (fun _ => true) none).countP esIntento = 0 := by
  have h := c8_abortar_sin_coincidencias [⟨"05", "Antioquia"⟩] ["Guainia"]
    (fun _ => true) (by decide) (by decide)
  exact ⟨h.1, h.2.1⟩
